import Mathlib

/-!
Verification of the pair style `lj/cut/coul/dsf/linear`
(`pair_lj_cut_coul_dsf_linear.cpp`): a Lennard-Jones plus
damped-shifted-force Coulomb pair kernel.  Doubles are embedded as real
numbers; each definition mirrors one function of the source file.
-/

namespace DSFLinear

/-! ## Constants (`#define` lines of the source) -/

def EWALD_P : ℝ := 0.3275911
def A1 : ℝ := 0.254829592
def A2 : ℝ := -0.284496736
def A3 : ℝ := 1.421413741
def A4 : ℝ := -1.453152027
def A5 : ℝ := 1.061405429
def two_pis : ℝ := 1.12837916709551

/-! ## Damping kernels (`unshifted_none` / `unshifted_debye` /
`unshifted_gauss` / `unshifted_erfc`)

Each source routine writes two output doubles `v` and `f`; we return the
pair `(v, f)` obtained by inlining the source's assignment sequence. -/

/-- `unshifted_none`: `v = 1.0/r; f = v*v`. -/
noncomputable def unshifted_none (r : ℝ) : ℝ × ℝ :=
  (1 / r, (1 / r) * (1 / r))

/-- `unshifted_debye`: `ar = alpha*r; f = 1.0/r; v = exp(-ar)*f;
f *= (1.0 + ar)*v`. -/
noncomputable def unshifted_debye (alpha r : ℝ) : ℝ × ℝ :=
  (Real.exp (-(alpha * r)) * (1 / r),
   (1 / r) * ((1 + alpha * r) * (Real.exp (-(alpha * r)) * (1 / r))))

/-- `unshifted_gauss`: `ar = alpha*r; ar *= ar; f = 1.0/r;
v = exp(-ar)*f; f *= (1.0 + 2.0*ar)*v`. -/
noncomputable def unshifted_gauss (alpha r : ℝ) : ℝ × ℝ :=
  (Real.exp (-(alpha * r * (alpha * r))) * (1 / r),
   (1 / r) * ((1 + 2 * (alpha * r * (alpha * r))) *
     (Real.exp (-(alpha * r * (alpha * r))) * (1 / r))))

/-- Horner chain of `unshifted_erfc`:
`(A1 + t*(A2 + t*(A3 + t*(A4 + t*A5))))` multiplied by the leading `t`. -/
def erfcPoly (t : ℝ) : ℝ :=
  t * (A1 + t * (A2 + t * (A3 + t * (A4 + t * A5))))

/-- `unshifted_erfc`: `ar = alpha*r; f = exp(-ar*ar)/r;
v = 1.0/(1.0 + EWALD_P*ar); v *= (A1 + v*(...))*f;
f = v/r + two_pis*alpha*f`. -/
noncomputable def unshifted_erfc (alpha r : ℝ) : ℝ × ℝ :=
  (erfcPoly (1 / (1 + EWALD_P * (alpha * r))) * (Real.exp (-(alpha * r * (alpha * r))) / r),
   erfcPoly (1 / (1 + EWALD_P * (alpha * r))) * (Real.exp (-(alpha * r * (alpha * r))) / r) / r
     + two_pis * alpha * (Real.exp (-(alpha * r * (alpha * r))) / r))

/-- Dispatch on `unshifted_flag`, mirroring the pointer-to-member
selection in `init_parameters` (flag 0 = none, 1 = debye, 2 = gauss,
anything else, in particular the default 3, = erfc). -/
noncomputable def unshifted (flag : ℕ) (alpha r : ℝ) : ℝ × ℝ :=
  if flag = 0 then unshifted_none r
  else if flag = 1 then unshifted_debye alpha r
  else if flag = 2 then unshifted_gauss alpha r
  else unshifted_erfc alpha r

/-! ## Shift calibration (`init_parameters`) -/

/-- The derived global scalars cached by `init_parameters`. -/
structure CalibratedParams where
  f_shift : ℝ
  e_shift : ℝ
  e_self : ℝ
  cut_coulsq : ℝ

/-- `init_parameters`: bind the kernel, set `cut_coulsq = cut_coul*cut_coul`,
evaluate the kernel at `cut_coul` into `(e_shift, f_shift)`, then
`e_shift += f_shift*cut_coul`, then the per-variant `e_self`, each divided
by `force->qqrd2e`. -/
noncomputable def init_parameters (flag : ℕ) (alpha cut_coul qqrd2e : ℝ) :
    CalibratedParams :=
  { f_shift := (unshifted flag alpha cut_coul).2
    e_shift := (unshifted flag alpha cut_coul).1 +
      (unshifted flag alpha cut_coul).2 * cut_coul
    e_self :=
      if flag = 1 then
        -0.5 * ((unshifted flag alpha cut_coul).1 +
          (unshifted flag alpha cut_coul).2 * cut_coul + alpha) / qqrd2e
      else if flag = 3 then
        -0.5 * ((unshifted flag alpha cut_coul).1 +
          (unshifted flag alpha cut_coul).2 * cut_coul + two_pis * alpha) / qqrd2e
      else
        -0.5 * ((unshifted flag alpha cut_coul).1 +
          (unshifted flag alpha cut_coul).2 * cut_coul) / qqrd2e
    cut_coulsq := cut_coul * cut_coul }

/-! ## Single-pair evaluation (`single`) -/

/-- `single`: the per-pair force-over-distance factor (`fforce`) and energy
(`eng`) computed by `PairLJCutCoulDSFLinear::single`, with the global and
per-type-pair parameters passed explicitly.  `r2inv = 1.0/rsq`; the LJ
branch is guarded by `rsq < cut_ljsq`, the Coulomb branch by
`rsq < cut_coulsq`; `fforce` is the guarded sum times `r2inv`. -/
noncomputable def single (flag : ℕ)
    (alpha qqrd2e f_shift e_shift cut_coulsq : ℝ)
    (cut_ljsq lj1 lj2 lj3 lj4 offset : ℝ)
    (qi qj rsq factor_coul factor_lj : ℝ) : ℝ × ℝ :=
  (((if rsq < cut_ljsq then
       factor_lj * ((1 / rsq) * (1 / rsq) * (1 / rsq)) *
         (lj1 * ((1 / rsq) * (1 / rsq) * (1 / rsq)) - lj2)
     else 0) +
    (if rsq < cut_coulsq then
       (factor_coul * qqrd2e * qi * qj) *
         ((unshifted flag alpha (Real.sqrt rsq)).2 - f_shift) * Real.sqrt rsq
     else 0)) * (1 / rsq),
   (if rsq < cut_ljsq then
      factor_lj * ((1 / rsq) * (1 / rsq) * (1 / rsq)) *
        (lj3 * ((1 / rsq) * (1 / rsq) * (1 / rsq)) - lj4) - offset
    else 0) +
   (if rsq < cut_coulsq then
      (factor_coul * qqrd2e * qi * qj) *
        ((unshifted flag alpha (Real.sqrt rsq)).1 + Real.sqrt rsq * f_shift - e_shift)
    else 0))

/-! ## Spec-side formulas for the pair evaluation (refinement targets,
written from the specification's wording, to be compared with `single`) -/

/-- Spec formula for the force-over-distance factor: guarded LJ term
`scale_lj·r6inv·(lj1·r6inv − lj2)` with `r6inv = (1/rsq)³`, plus guarded
Coulomb term `prefactor·(f − f_shift)·r`, divided by `rsq`. -/
noncomputable def spec_single_force (flag : ℕ)
    (alpha qqrd2e f_shift cut_coulsq : ℝ)
    (cut_ljsq lj1 lj2 : ℝ) (qi qj rsq factor_coul factor_lj : ℝ) : ℝ :=
  ((if rsq < cut_ljsq then
      factor_lj * (1 / rsq) ^ 3 * (lj1 * (1 / rsq) ^ 3 - lj2)
    else 0) +
   (if rsq < cut_coulsq then
      (factor_coul * qqrd2e * qi * qj) *
        ((unshifted flag alpha (Real.sqrt rsq)).2 - f_shift) * Real.sqrt rsq
    else 0)) / rsq

/-- Spec formula for the pair energy: guarded LJ energy
`scale_lj·r6inv·(lj3·r6inv − lj4) − offset` plus guarded Coulomb energy
`prefactor·(v + r·f_shift − e_shift)`. -/
noncomputable def spec_single_energy (flag : ℕ)
    (alpha qqrd2e f_shift e_shift cut_coulsq : ℝ)
    (cut_ljsq lj3 lj4 offset : ℝ) (qi qj rsq factor_coul factor_lj : ℝ) : ℝ :=
  (if rsq < cut_ljsq then
     factor_lj * (1 / rsq) ^ 3 * (lj3 * (1 / rsq) ^ 3 - lj4) - offset
   else 0) +
  (if rsq < cut_coulsq then
     (factor_coul * qqrd2e * qi * qj) *
       ((unshifted flag alpha (Real.sqrt rsq)).1 + Real.sqrt rsq * f_shift - e_shift)
   else 0)

/-- C1: the pair evaluation returns exactly the spec's guarded LJ and
Coulomb force and energy contributions, with the force sum divided by
`rsq`. -/
theorem single_matches_spec (flag : ℕ)
    (alpha qqrd2e f_shift e_shift cut_coulsq : ℝ)
    (cut_ljsq lj1 lj2 lj3 lj4 offset : ℝ)
    (qi qj rsq factor_coul factor_lj : ℝ) (hr : 0 < rsq) :
    single flag alpha qqrd2e f_shift e_shift cut_coulsq
      cut_ljsq lj1 lj2 lj3 lj4 offset qi qj rsq factor_coul factor_lj =
    (spec_single_force flag alpha qqrd2e f_shift cut_coulsq
       cut_ljsq lj1 lj2 qi qj rsq factor_coul factor_lj,
     spec_single_energy flag alpha qqrd2e f_shift e_shift cut_coulsq
       cut_ljsq lj3 lj4 offset qi qj rsq factor_coul factor_lj) := by
  unfold single spec_single_force spec_single_energy
  refine Prod.ext ?_ ?_ <;> simp only <;> split_ifs <;> ring

/-- Witness for `single_matches_spec` at a concrete input. -/
theorem single_matches_spec_witness :
    0 < (4 : ℝ) ∧
    single 0 1 1 (1 / 4) (1 / 2) 9 6 48 24 4 4 0 1 (-1) 4 1 1 =
    (spec_single_force 0 1 1 (1 / 4) 9 6 48 24 1 (-1) 4 1 1,
     spec_single_energy 0 1 1 (1 / 4) (1 / 2) 9 6 4 4 0 1 (-1) 4 1 1) :=
  ⟨by norm_num,
   single_matches_spec 0 1 1 (1 / 4) (1 / 2) 9 6 48 24 4 4 0 1 (-1) 4 1 1
     (by norm_num)⟩

/-- C2: for every damping variant and calibrated parameter set, the shifted
Coulomb force and energy terms vanish exactly at `r = cut_coul`. -/
theorem coul_shift_zero_at_cutoff (flag : ℕ) (alpha cut_coul qqrd2e prefactor : ℝ)
    (hc : 0 < cut_coul) :
    prefactor * ((unshifted flag alpha cut_coul).2 -
        (init_parameters flag alpha cut_coul qqrd2e).f_shift) * cut_coul = 0 ∧
    prefactor * ((unshifted flag alpha cut_coul).1 +
        cut_coul * (init_parameters flag alpha cut_coul qqrd2e).f_shift -
        (init_parameters flag alpha cut_coul qqrd2e).e_shift) = 0 := by
  unfold init_parameters
  constructor <;> simp only <;> ring

/-- Witness for `coul_shift_zero_at_cutoff` at a concrete input. -/
theorem coul_shift_zero_at_cutoff_witness :
    0 < (5 / 2 : ℝ) ∧
    ((3 : ℝ) * ((unshifted 0 1 (5 / 2)).2 -
        (init_parameters 0 1 (5 / 2) 1).f_shift) * (5 / 2) = 0 ∧
    (3 : ℝ) * ((unshifted 0 1 (5 / 2)).1 +
        (5 / 2) * (init_parameters 0 1 (5 / 2) 1).f_shift -
        (init_parameters 0 1 (5 / 2) 1).e_shift) = 0) :=
  ⟨by norm_num, coul_shift_zero_at_cutoff 0 1 (5 / 2) 1 3 (by norm_num)⟩

/-- C5: the None, Debye, and Gaussian kernels return exactly the spec's
closed-form `(v, f)` pairs for every `r > 0` and every `alpha`. -/
theorem kernels_match_spec (alpha r : ℝ) (hr : 0 < r) :
    unshifted_none r = (1 / r, 1 / r ^ 2) ∧
    unshifted_debye alpha r =
      (Real.exp (-(alpha * r)) / r,
       (1 + alpha * r) * Real.exp (-(alpha * r)) / r ^ 2) ∧
    unshifted_gauss alpha r =
      (Real.exp (-(alpha * r) ^ 2) / r,
       (1 + 2 * (alpha * r) ^ 2) * Real.exp (-(alpha * r) ^ 2) / r ^ 2) := by
  have hsq : alpha * r * (alpha * r) = (alpha * r) ^ 2 := by ring
  refine ⟨?_, ?_, ?_⟩ <;>
    simp only [unshifted_none, unshifted_debye, unshifted_gauss, hsq] <;>
    refine Prod.ext ?_ ?_ <;> simp only <;> ring

/-- Witness for `kernels_match_spec` at a concrete input. -/
theorem kernels_match_spec_witness :
    0 < (2 : ℝ) ∧
    (unshifted_none 2 = (1 / 2, 1 / 2 ^ 2) ∧
    unshifted_debye 1 2 =
      (Real.exp (-(1 * 2)) / 2, (1 + 1 * 2) * Real.exp (-(1 * 2)) / 2 ^ 2) ∧
    unshifted_gauss 1 2 =
      (Real.exp (-(1 * 2) ^ 2) / 2,
       (1 + 2 * (1 * 2) ^ 2) * Real.exp (-(1 * 2) ^ 2) / 2 ^ 2)) :=
  ⟨by norm_num, kernels_match_spec 1 2 (by norm_num)⟩

/-- C3 (amended): `init_parameters` computes `f_shift` as the kernel force
value at the cutoff, `e_shift` as the kernel potential at the cutoff plus
`f_shift·cut_coul`, and `e_self` per variant (flag 0 = None, 2 = Gaussian:
`−0.5·e_shift`; flag 1 = Debye: `−0.5·(e_shift + alpha)`; flag 3 = erfc:
`−0.5·(e_shift + two_pis·alpha)` with the code's constant
`two_pis = 1.12837916709551`), each divided by `qqrd2e`. -/
theorem init_parameters_matches_spec (alpha rc q : ℝ) :
    (∀ flag : ℕ, (init_parameters flag alpha rc q).f_shift =
      (unshifted flag alpha rc).2) ∧
    (∀ flag : ℕ, (init_parameters flag alpha rc q).e_shift =
      (unshifted flag alpha rc).1 +
        (init_parameters flag alpha rc q).f_shift * rc) ∧
    (init_parameters 0 alpha rc q).e_self =
      -0.5 * (init_parameters 0 alpha rc q).e_shift / q ∧
    (init_parameters 2 alpha rc q).e_self =
      -0.5 * (init_parameters 2 alpha rc q).e_shift / q ∧
    (init_parameters 1 alpha rc q).e_self =
      -0.5 * ((init_parameters 1 alpha rc q).e_shift + alpha) / q ∧
    (init_parameters 3 alpha rc q).e_self =
      -0.5 * ((init_parameters 3 alpha rc q).e_shift + two_pis * alpha) / q := by
  unfold init_parameters
  norm_num

/-- C3 counterexample: for the erfc variant the code's self-energy uses the
literal `two_pis = 1.12837916709551`, which is not the exact `2/√π`; at
`alpha = 1`, `cut_coul = 1`, `qqrd2e = 1` the claimed formula differs. -/
theorem erfc_self_energy_not_exact :
    (init_parameters 3 1 1 1).e_self ≠
      -0.5 * ((init_parameters 3 1 1 1).e_shift + (2 / Real.sqrt Real.pi) * 1) / 1 := by
  have hpiPos := Real.pi_pos
  have hs : (0 : ℝ) < Real.sqrt Real.pi := Real.sqrt_pos.mpr hpiPos
  have htp : two_pis ≠ 2 / Real.sqrt Real.pi := by
    intro h
    have htpne : two_pis ≠ 0 := by norm_num [two_pis]
    have hsq : Real.sqrt Real.pi = 2 / two_pis := by
      field_simp at h ⊢
      linarith [h]
    have hpi2 : Real.pi = (2 / two_pis) ^ 2 := by
      rw [← hsq, Real.sq_sqrt hpiPos.le]
    have hcast :
        ((40000000000000000000000000000 / 12732395447351568774894621601 : ℚ) : ℝ) =
          (40000000000000000000000000000 : ℝ) / 12732395447351568774894621601 := by
      push_cast
      ring
    have hrat : Real.pi =
        ((40000000000000000000000000000 / 12732395447351568774894621601 : ℚ) : ℝ) := by
      rw [hpi2, hcast]
      norm_num [two_pis]
    exact irrational_pi ⟨_, hrat.symm⟩
  intro h
  apply htp
  unfold init_parameters at h
  norm_num at h
  linarith [h]

/-! ## Self-energy tally of the interaction loop (`compute`, lines 99-104) -/

/-- One `ev_tally(i, j, nlocal, newton_pair, evdwl, ecoul, fpair,
delx, dely, delz)` energy/virial report to the host ledger (the geometric
arguments of the self-energy tally are all zero and are omitted). -/
structure TallyEntry where
  i : ℕ
  j : ℕ
  evdwl : ℝ
  ecoul : ℝ
  fpair : ℝ

/-- The self-energy tallies emitted at the top of `compute`:
`if (eflag && self_flag) for (i = 0; i < nlocal; i++) { qtmp = qqrd2e*q[i];
ev_tally(i, i, nlocal, 0, 0.0, e_self*qtmp*qtmp, 0.0, 0.0, 0.0, 0.0); }`. -/
noncomputable def selfEnergyTallies (eflag self_flag : Bool)
    (qqrd2e e_self : ℝ) (nlocal : ℕ) (q : ℕ → ℝ) : List TallyEntry :=
  if eflag && self_flag then
    (List.range nlocal).map fun i =>
      { i := i, j := i, evdwl := 0,
        ecoul := e_self * (qqrd2e * q i) * (qqrd2e * q i), fpair := 0 }
  else []

/-- C4 counterexample: with `qqrd2e = 2`, one particle of charge 1 and
`e_self = 1`, the tallied self-energy is `e_self·(qqrd2e·q)² = 4`, not the
claimed `qqrd2e·q²·e_self = 2`. -/
theorem self_energy_tally_counterexample :
    selfEnergyTallies true true 2 1 1 (fun _ => 1) =
      [{ i := 0, j := 0, evdwl := 0, ecoul := 4, fpair := 0 }] ∧
    (4 : ℝ) ≠ 2 * 1 ^ 2 * 1 := by
  constructor
  · have h1 : List.range 1 = [0] := rfl
    simp only [selfEnergyTallies, Bool.and_self, if_pos, h1,
      List.map_cons, List.map_nil]
    norm_num
  · norm_num

/-- C4 (amended): when energy accounting and self-energy are enabled, each
locally owned particle `i < nlocal` receives exactly one tally, attributed
to `(i, i)` with no partner, whose Coulomb energy is
`qqrd2e² · q_i² · e_self` (the stored `e_self` already carries a `1/qqrd2e`
factor from calibration). -/
theorem self_energy_tally_amended (qqrd2e e_self : ℝ) (nlocal : ℕ)
    (q : ℕ → ℝ) (i : ℕ) (hi : i < nlocal) :
    { i := i, j := i, evdwl := 0, ecoul := qqrd2e ^ 2 * q i ^ 2 * e_self,
      fpair := 0 : TallyEntry } ∈
      selfEnergyTallies true true qqrd2e e_self nlocal q := by
  simp only [selfEnergyTallies, Bool.and_self, if_pos, List.mem_map,
    List.mem_range]
  exact ⟨i, hi, by rw [TallyEntry.mk.injEq]; refine ⟨rfl, rfl, rfl, by ring, rfl⟩⟩

/-- Witness for `self_energy_tally_amended` at a concrete input. -/
theorem self_energy_tally_amended_witness :
    0 < 1 ∧
    { i := 0, j := 0, evdwl := 0, ecoul := (2 : ℝ) ^ 2 * (3 : ℝ) ^ 2 * 5,
      fpair := 0 : TallyEntry } ∈
      selfEnergyTallies true true 2 5 1 (fun _ => 3) :=
  ⟨by norm_num, self_energy_tally_amended 2 5 1 (fun _ => 3) 0 (by norm_num)⟩

/-! ## Force = negative derivative of potential -/

/-- C6 (amended): for the None, Debye, and Gaussian variants, the force
component returned by the kernel is exactly the negative derivative of the
potential component with respect to `r`, for all positive `r` and `alpha`. -/
theorem nonerfc_force_is_neg_deriv (alpha r : ℝ) (ha : 0 < alpha) (hr : 0 < r) :
    HasDerivAt (fun s => (unshifted_none s).1) (-(unshifted_none r).2) r ∧
    HasDerivAt (fun s => (unshifted_debye alpha s).1)
      (-(unshifted_debye alpha r).2) r ∧
    HasDerivAt (fun s => (unshifted_gauss alpha s).1)
      (-(unshifted_gauss alpha r).2) r := by
  have hr0 : r ≠ 0 := ne_of_gt hr
  have hinv : HasDerivAt (fun s : ℝ => 1 / s) (-(1 / r ^ 2)) r := by
    simpa [one_div] using hasDerivAt_inv hr0
  refine ⟨?_, ?_, ?_⟩
  · simp only [unshifted_none]
    convert hinv using 1
    field_simp
    ring
  · have h1 : HasDerivAt (fun s : ℝ => -(alpha * s)) (-alpha) r := by
      simpa using ((hasDerivAt_id r).const_mul alpha).neg
    have h2 := h1.exp.mul hinv
    simp only [unshifted_debye]
    convert h2 using 1
    field_simp
    ring
  · have ha1 : HasDerivAt (fun s : ℝ => alpha * s) alpha r := by
      simpa using (hasDerivAt_id r).const_mul alpha
    have h1 : HasDerivAt (fun s : ℝ => -(alpha * s * (alpha * s)))
        (-(alpha * (alpha * r) + alpha * r * alpha)) r := (ha1.mul ha1).neg
    have h2 := h1.exp.mul hinv
    simp only [unshifted_gauss]
    convert h2 using 1
    field_simp
    ring

/-- Witness for `nonerfc_force_is_neg_deriv` at a concrete input. -/
theorem nonerfc_force_is_neg_deriv_witness :
    (0 < (1 : ℝ) ∧ 0 < (1 : ℝ)) ∧
    (HasDerivAt (fun s => (unshifted_none s).1) (-(unshifted_none 1).2) 1 ∧
    HasDerivAt (fun s => (unshifted_debye 1 s).1) (-(unshifted_debye 1 1).2) 1 ∧
    HasDerivAt (fun s => (unshifted_gauss 1 s).1) (-(unshifted_gauss 1 1).2) 1) :=
  ⟨⟨by norm_num, by norm_num⟩,
   nonerfc_force_is_neg_deriv 1 1 (by norm_num) (by norm_num)⟩

/-- Derivative of the Horner chain of the erfc rational approximation. -/
theorem hasDerivAt_erfcPoly (t : ℝ) :
    HasDerivAt (fun u => erfcPoly u)
      (A1 + t * (2 * A2 + t * (3 * A3 + t * (4 * A4 + t * (5 * A5))))) t := by
  have h0 : HasDerivAt (fun u : ℝ => u) 1 t := hasDerivAt_id t
  have h5 : HasDerivAt (fun u : ℝ => A4 + u * A5) A5 t := by
    simpa using (h0.mul_const A5).const_add A4
  have h4 := (h0.mul h5).const_add A3
  have h3 := (h0.mul h4).const_add A2
  have h2 := (h0.mul h3).const_add A1
  have h1 := h0.mul h2
  simp only [erfcPoly]
  convert h1 using 1
  ring

/-- The exact derivative of the erfc-variant potential at `alpha = 1`,
`r = 1`, obtained by the chain rule. -/
theorem hasDerivAt_erfc_potential :
    HasDerivAt (fun s => (unshifted_erfc 1 s).1)
      ((A1 + (1 + EWALD_P)⁻¹ * (2 * A2 + (1 + EWALD_P)⁻¹ * (3 * A3 +
          (1 + EWALD_P)⁻¹ * (4 * A4 + (1 + EWALD_P)⁻¹ * (5 * A5)))))
          * (-EWALD_P / (1 + EWALD_P) ^ 2) * (Real.exp (-1) * 1⁻¹)
        + erfcPoly ((1 + EWALD_P)⁻¹)
          * (Real.exp (-1) * -(1 + 1) * 1⁻¹ + Real.exp (-1) * -(1 ^ 2)⁻¹)) 1 := by
  have hfun : (fun s : ℝ => (unshifted_erfc 1 s).1) =
      fun s : ℝ => erfcPoly ((1 + EWALD_P * s)⁻¹) * (Real.exp (-(s * s)) * s⁻¹) := by
    funext s
    simp [unshifted_erfc, one_div, div_eq_mul_inv]
  rw [hfun]
  have hne : (1 : ℝ) + EWALD_P * 1 ≠ 0 := by norm_num [EWALD_P]
  have hl : HasDerivAt (fun s : ℝ => 1 + EWALD_P * s) EWALD_P 1 := by
    simpa using ((hasDerivAt_id 1).const_mul EWALD_P).const_add 1
  have ht : HasDerivAt (fun s : ℝ => (1 + EWALD_P * s)⁻¹)
      (-EWALD_P / (1 + EWALD_P * 1) ^ 2) 1 := hl.inv hne
  have hQ := (hasDerivAt_erfcPoly ((1 + EWALD_P * 1)⁻¹)).comp 1 ht
  have hss : HasDerivAt (fun s : ℝ => -(s * s)) (-(1 * 1 + 1 * 1)) 1 :=
    ((hasDerivAt_id 1).mul (hasDerivAt_id 1)).neg
  have hi : HasDerivAt (fun y : ℝ => y⁻¹) (-((1 : ℝ) ^ 2)⁻¹) 1 :=
    hasDerivAt_inv one_ne_zero
  have hg := hss.exp.mul hi
  have hv := hQ.mul hg
  simp only [Function.comp] at hv
  convert hv using 1
  norm_num

/-- C6 counterexample: for the erfc variant (the rational approximation),
the force value at `alpha = 1`, `r = 1` is NOT the negative derivative of
the potential value returned by the same kernel. -/
theorem erfc_force_not_neg_deriv :
    ¬ HasDerivAt (fun s => (unshifted_erfc 1 s).1) (-(unshifted_erfc 1 1).2) 1 := by
  intro h
  have hu := (hasDerivAt_erfc_potential).unique h
  have hepos : (0 : ℝ) < Real.exp (-1) := Real.exp_pos _
  simp only [unshifted_erfc, erfcPoly] at hu
  norm_num [EWALD_P, A1, A2, A3, A4, A5, two_pis] at hu
  nlinarith [hu, hepos]

/-! ## Per-type-pair parameter tables (`allocate` / `coeff` / `settings` /
`init_one`)

The per-type-pair arrays are embedded as total functions on type indices.
`memory->create` does not initialize the `double` arrays, so the
pre-allocation contents (arbitrary values) are whatever the functions of
the starting `PairState` hold; `allocate` initializes only the upper
triangle (`j ≥ i`) of `setflag` to 0. -/

structure PairState where
  setflag : ℕ → ℕ → ℤ
  epsilon : ℕ → ℕ → ℝ
  sigma : ℕ → ℕ → ℝ
  cut_lj : ℕ → ℕ → ℝ
  cut_ljsq : ℕ → ℕ → ℝ
  lj1 : ℕ → ℕ → ℝ
  lj2 : ℕ → ℕ → ℝ
  lj3 : ℕ → ℕ → ℝ
  lj4 : ℕ → ℕ → ℝ
  offset : ℕ → ℕ → ℝ

/-- Write a single cell of a two-index table. -/
def upd2 {α : Type} (f : ℕ → ℕ → α) (i j : ℕ) (v : α) : ℕ → ℕ → α :=
  fun a b => if a = i ∧ b = j then v else f a b

/-- Write a cell and its mirror cell (`x[i][j] = v; x[j][i] = x[i][j];`). -/
def updSym {α : Type} (f : ℕ → ℕ → α) (i j : ℕ) (v : α) : ℕ → ℕ → α :=
  upd2 (upd2 f i j v) j i v

/-- `allocate`: `for (i = 1..n) for (j = i..n) setflag[i][j] = 0;`.  The
other arrays are created without initialization. -/
def allocate (n : ℕ) (st : PairState) : PairState :=
  { st with setflag := fun i j =>
      if 1 ≤ i ∧ i ≤ n ∧ i ≤ j ∧ j ≤ n then 0 else st.setflag i j }

/-- The set of cells visited by the `coeff` double loop
`for (i = ilo..ihi) for (j = MAX(jlo,i)..jhi)`. -/
abbrev inCoeffRange (ilo ihi jlo jhi i j : ℕ) : Prop :=
  ilo ≤ i ∧ i ≤ ihi ∧ max jlo i ≤ j ∧ j ≤ jhi

/-- The number of iterations of the `coeff` double loop (the source's
`count`). -/
def coeffCount (ilo ihi jlo jhi : ℕ) : ℕ :=
  (List.range' ilo (ihi + 1 - ilo)).foldl
    (fun acc i => acc + (jhi + 1 - max jlo i)) 0

/-- The table writes of `coeff`: each visited cell gets the given epsilon,
sigma, and LJ cutoff (the caller passes either the explicit fifth argument
or `cut_lj_global`), and its `setflag` is set to 1. -/
def coeffState (st : PairState) (ilo ihi jlo jhi : ℕ) (eps sig cut : ℝ) :
    PairState :=
  { st with
    epsilon := fun i j =>
      if inCoeffRange ilo ihi jlo jhi i j then eps else st.epsilon i j
    sigma := fun i j =>
      if inCoeffRange ilo ihi jlo jhi i j then sig else st.sigma i j
    cut_lj := fun i j =>
      if inCoeffRange ilo ihi jlo jhi i j then cut else st.cut_lj i j
    setflag := fun i j =>
      if inCoeffRange ilo ihi jlo jhi i j then 1 else st.setflag i j }

/-- `coeff` with resolved type ranges: performs the loop writes and then
errors (`"Incorrect args for pair coefficients"`) when the iteration count
is zero; a zero count means no cell was written, so the state is unchanged
in the error case. -/
def coeff (st : PairState) (ilo ihi jlo jhi : ℕ) (eps sig cut : ℝ) :
    Except Unit (PairState × ℕ) :=
  if coeffCount ilo ihi jlo jhi = 0 then Except.error ()
  else Except.ok (coeffState st ilo ihi jlo jhi eps sig cut,
    coeffCount ilo ihi jlo jhi)

/-- The cutoff-reset loop at the end of `settings`, run when the tables are
already allocated: `for (i = 1..n) for (j = i+1..n) if (setflag[i][j])
cut_lj[i][j] = cut_lj_global;`. -/
def settings_reset (n : ℕ) (cut_lj_global : ℝ) (st : PairState) : PairState :=
  { st with cut_lj := fun i j =>
      if 1 ≤ i ∧ i ≤ n ∧ i + 1 ≤ j ∧ j ≤ n ∧ st.setflag i j ≠ 0
      then cut_lj_global else st.cut_lj i j }

/-- Modelled from the spec: the host's `Pair::mix_energy`, used by
`init_one`, is not part of this repository; the spec derives the
cross-type epsilon as "the geometric mean of self-parameters
epsilon(i,i), epsilon(j,j)" (the optional distance-weighted variant of the
mixing policy is not modelled). -/
noncomputable def mix_energy (e1 e2 s1 s2 : ℝ) : ℝ := Real.sqrt (e1 * e2)

/-- Modelled from the spec: the host's `Pair::mix_distance`, not part of
this repository; the spec derives cross-type sigma and LJ cutoff as "the
arithmetic mean" of the two self-parameters. -/
noncomputable def mix_distance (d1 d2 : ℝ) : ℝ := 0.5 * (d1 + d2)

/-- `init_one`: mix epsilon/sigma/cut_lj into cell `(i,j)` when the pair
was never explicitly set, compute `cut = MAX(cut_lj[i][j], cut_coul)`,
derive `cut_ljsq` and `lj1..lj4` and `offset` and mirror each of those six
derived values into cell `(j,i)`, and return `cut`.  (The tail-correction
block, which writes no table cell, is not modelled.) -/
noncomputable def init_one (st : PairState) (i j : ℕ) (cut_coul : ℝ)
    (offset_flag : Bool) : PairState × ℝ :=
  let stm :=
    if st.setflag i j = 0 then
      { st with
        epsilon := upd2 st.epsilon i j
          (mix_energy (st.epsilon i i) (st.epsilon j j)
            (st.sigma i i) (st.sigma j j))
        sigma := upd2 st.sigma i j (mix_distance (st.sigma i i) (st.sigma j j))
        cut_lj := upd2 st.cut_lj i j
          (mix_distance (st.cut_lj i i) (st.cut_lj j j)) }
    else st
  ({ stm with
     cut_ljsq := updSym stm.cut_ljsq i j (stm.cut_lj i j * stm.cut_lj i j)
     lj1 := updSym stm.lj1 i j (48 * stm.epsilon i j * stm.sigma i j ^ 12)
     lj2 := updSym stm.lj2 i j (24 * stm.epsilon i j * stm.sigma i j ^ 6)
     lj3 := updSym stm.lj3 i j (4 * stm.epsilon i j * stm.sigma i j ^ 12)
     lj4 := updSym stm.lj4 i j (4 * stm.epsilon i j * stm.sigma i j ^ 6)
     offset := updSym stm.offset i j
       (if offset_flag then
          4 * stm.epsilon i j * ((stm.sigma i j / stm.cut_lj i j) ^ 12 -
            (stm.sigma i j / stm.cut_lj i j) ^ 6)
        else 0) },
   max (stm.cut_lj i j) cut_coul)

/-- A concrete post-allocation table state: every `setflag` cell 0, with
arbitrary (here constant) contents in the value arrays. -/
noncomputable def stW : PairState where
  setflag := fun _ _ => 0
  epsilon := fun _ _ => 4
  sigma := fun _ _ => 2
  cut_lj := fun _ _ => 3
  cut_ljsq := fun _ _ => 9
  lj1 := fun _ _ => 0
  lj2 := fun _ _ => 0
  lj3 := fun _ _ => 0
  lj4 := fun _ _ => 0
  offset := fun _ _ => 0

/-- A concrete table state with every pair explicitly set. -/
noncomputable def stX : PairState := { stW with setflag := fun _ _ => 1 }

/-- C7: finalizing a never-explicitly-set pair derives epsilon, sigma and
cut_lj by the mixing rules, then (in all cases) computes the four LJ
coefficients and the offset from the resolved values, and returns the
larger of the pair cutoff and the global Coulomb cutoff. -/
theorem init_one_matches_spec (st : PairState) (i j : ℕ) (cut_coul : ℝ)
    (offset_flag : Bool) (hset : st.setflag i j = 0) :
    (init_one st i j cut_coul offset_flag).1.epsilon i j =
      Real.sqrt (st.epsilon i i * st.epsilon j j) ∧
    (init_one st i j cut_coul offset_flag).1.sigma i j =
      0.5 * (st.sigma i i + st.sigma j j) ∧
    (init_one st i j cut_coul offset_flag).1.cut_lj i j =
      0.5 * (st.cut_lj i i + st.cut_lj j j) ∧
    (init_one st i j cut_coul offset_flag).1.lj1 i j =
      48 * (init_one st i j cut_coul offset_flag).1.epsilon i j *
        (init_one st i j cut_coul offset_flag).1.sigma i j ^ 12 ∧
    (init_one st i j cut_coul offset_flag).1.lj2 i j =
      24 * (init_one st i j cut_coul offset_flag).1.epsilon i j *
        (init_one st i j cut_coul offset_flag).1.sigma i j ^ 6 ∧
    (init_one st i j cut_coul offset_flag).1.lj3 i j =
      4 * (init_one st i j cut_coul offset_flag).1.epsilon i j *
        (init_one st i j cut_coul offset_flag).1.sigma i j ^ 12 ∧
    (init_one st i j cut_coul offset_flag).1.lj4 i j =
      4 * (init_one st i j cut_coul offset_flag).1.epsilon i j *
        (init_one st i j cut_coul offset_flag).1.sigma i j ^ 6 ∧
    (init_one st i j cut_coul offset_flag).1.offset i j =
      (if offset_flag then
        4 * (init_one st i j cut_coul offset_flag).1.epsilon i j *
          (((init_one st i j cut_coul offset_flag).1.sigma i j /
              (init_one st i j cut_coul offset_flag).1.cut_lj i j) ^ 12 -
           ((init_one st i j cut_coul offset_flag).1.sigma i j /
              (init_one st i j cut_coul offset_flag).1.cut_lj i j) ^ 6)
       else 0) ∧
    (init_one st i j cut_coul offset_flag).2 =
      max ((init_one st i j cut_coul offset_flag).1.cut_lj i j) cut_coul := by
  simp [init_one, hset, updSym, upd2, mix_energy, mix_distance]

/-- Witness for `init_one_matches_spec` at a concrete input. -/
theorem init_one_matches_spec_witness :
    stW.setflag 1 2 = 0 ∧
    ((init_one stW 1 2 (5 / 2) true).1.epsilon 1 2 =
      Real.sqrt (stW.epsilon 1 1 * stW.epsilon 2 2) ∧
    (init_one stW 1 2 (5 / 2) true).1.sigma 1 2 =
      0.5 * (stW.sigma 1 1 + stW.sigma 2 2) ∧
    (init_one stW 1 2 (5 / 2) true).1.cut_lj 1 2 =
      0.5 * (stW.cut_lj 1 1 + stW.cut_lj 2 2) ∧
    (init_one stW 1 2 (5 / 2) true).1.lj1 1 2 =
      48 * (init_one stW 1 2 (5 / 2) true).1.epsilon 1 2 *
        (init_one stW 1 2 (5 / 2) true).1.sigma 1 2 ^ 12 ∧
    (init_one stW 1 2 (5 / 2) true).1.lj2 1 2 =
      24 * (init_one stW 1 2 (5 / 2) true).1.epsilon 1 2 *
        (init_one stW 1 2 (5 / 2) true).1.sigma 1 2 ^ 6 ∧
    (init_one stW 1 2 (5 / 2) true).1.lj3 1 2 =
      4 * (init_one stW 1 2 (5 / 2) true).1.epsilon 1 2 *
        (init_one stW 1 2 (5 / 2) true).1.sigma 1 2 ^ 12 ∧
    (init_one stW 1 2 (5 / 2) true).1.lj4 1 2 =
      4 * (init_one stW 1 2 (5 / 2) true).1.epsilon 1 2 *
        (init_one stW 1 2 (5 / 2) true).1.sigma 1 2 ^ 6 ∧
    (init_one stW 1 2 (5 / 2) true).1.offset 1 2 =
      (if true then
        4 * (init_one stW 1 2 (5 / 2) true).1.epsilon 1 2 *
          (((init_one stW 1 2 (5 / 2) true).1.sigma 1 2 /
              (init_one stW 1 2 (5 / 2) true).1.cut_lj 1 2) ^ 12 -
           ((init_one stW 1 2 (5 / 2) true).1.sigma 1 2 /
              (init_one stW 1 2 (5 / 2) true).1.cut_lj 1 2) ^ 6)
       else 0) ∧
    (init_one stW 1 2 (5 / 2) true).2 =
      max ((init_one stW 1 2 (5 / 2) true).1.cut_lj 1 2) (5 / 2)) :=
  ⟨rfl, init_one_matches_spec stW 1 2 (5 / 2) true rfl⟩

/-- The six derived per-pair tables agree on `(i,j)` and `(j,i)`. -/
def mirroredAt (s : PairState) (i j : ℕ) : Prop :=
  s.cut_ljsq i j = s.cut_ljsq j i ∧ s.lj1 i j = s.lj1 j i ∧
  s.lj2 i j = s.lj2 j i ∧ s.lj3 i j = s.lj3 j i ∧
  s.lj4 i j = s.lj4 j i ∧ s.offset i j = s.offset j i

/-- C8 counterexample: the raw parameter tables are not kept symmetric.
Starting from the all-zero post-allocation state and running
`coeff` on the single cell `(1,2)` (ranges `1..1 × 2..2`), the cell
`(1,2)` holds `epsilon = 1/2`, `setflag = 1`, while the mirror cell
`(2,1)` still holds its pre-existing contents (`4` resp. `0`). -/
theorem table_not_symmetric :
    (coeffState (allocate 2 stW) 1 1 2 2 (1 / 2) (6 / 5) (5 / 2)).epsilon 1 2
      = 1 / 2 ∧
    (coeffState (allocate 2 stW) 1 1 2 2 (1 / 2) (6 / 5) (5 / 2)).epsilon 2 1
      = 4 ∧
    ((1 : ℝ) / 2) ≠ 4 ∧
    (coeffState (allocate 2 stW) 1 1 2 2 (1 / 2) (6 / 5) (5 / 2)).setflag 1 2
      = 1 ∧
    (coeffState (allocate 2 stW) 1 1 2 2 (1 / 2) (6 / 5) (5 / 2)).setflag 2 1
      = 0 ∧
    ((1 : ℤ) ≠ 0) ∧
    coeff (allocate 2 stW) 1 1 2 2 (1 / 2) (6 / 5) (5 / 2) =
      Except.ok (coeffState (allocate 2 stW) 1 1 2 2 (1 / 2) (6 / 5) (5 / 2), 1)
    := by
  refine ⟨?_, ?_, by norm_num, ?_, ?_, by norm_num, ?_⟩ <;>
    simp [coeff, coeffState, coeffCount, allocate, stW, inCoeffRange]

/-- C8 (amended): after finalizing pair `(i,j)`, the six derived tables
(`cut_ljsq`, `lj1..lj4`, `offset`) hold identical values at `(i,j)` and
`(j,i)`; the raw `epsilon`/`sigma`/`cut_lj`/`setflag` cells at `(j,i)` are
left untouched (they are maintained only for `i ≤ j`). -/
theorem derived_tables_mirrored (st : PairState) (i j : ℕ) (cut_coul : ℝ)
    (offset_flag : Bool) (hij : i ≠ j) :
    mirroredAt (init_one st i j cut_coul offset_flag).1 i j ∧
    (init_one st i j cut_coul offset_flag).1.epsilon j i = st.epsilon j i ∧
    (init_one st i j cut_coul offset_flag).1.sigma j i = st.sigma j i ∧
    (init_one st i j cut_coul offset_flag).1.cut_lj j i = st.cut_lj j i ∧
    (init_one st i j cut_coul offset_flag).1.setflag j i = st.setflag j i := by
  have hji : j ≠ i := fun h => hij h.symm
  constructor
  · simp [mirroredAt, init_one, updSym, upd2, hij, hji]
  · by_cases h : st.setflag i j = 0 <;>
      simp [init_one, updSym, upd2, hij, hji, h]

/-- Witness for `derived_tables_mirrored` at a concrete input. -/
theorem derived_tables_mirrored_witness :
    mirroredAt (init_one stW 1 2 (5 / 2) false).1 1 2 ∧
    (init_one stW 1 2 (5 / 2) false).1.epsilon 2 1 = stW.epsilon 2 1 ∧
    (init_one stW 1 2 (5 / 2) false).1.sigma 2 1 = stW.sigma 2 1 ∧
    (init_one stW 1 2 (5 / 2) false).1.cut_lj 2 1 = stW.cut_lj 2 1 ∧
    (init_one stW 1 2 (5 / 2) false).1.setflag 2 1 = stW.setflag 2 1 :=
  derived_tables_mirrored stW 1 2 (5 / 2) false (by norm_num)

/-- C9 counterexample: with two types, the resolved ranges `1..2 × 1..2`
drive the upper-triangle loop, not the full cross product: the iteration
count is 3 (not 4), and cell `(2,1)` is not marked. -/
theorem coeff_not_full_cross_product :
    coeffCount 1 2 1 2 = 3 ∧ (3 : ℕ) ≠ 4 ∧
    (coeffState (allocate 2 stW) 1 2 1 2 (1 / 2) (6 / 5) (5 / 2)).setflag 2 1
      = 0 ∧ ((0 : ℤ) ≠ 1) := by
  refine ⟨rfl, by norm_num, ?_, by norm_num⟩
  simp [coeffState, allocate, stW, inCoeffRange]

/-- C9 (amended): `coeff` marks exactly the cells `(i,j)` with
`ilo ≤ i ≤ ihi` and `max(jlo,i) ≤ j ≤ jhi` as explicitly set, storing the
given epsilon, sigma and cutoff there; it returns the loop count and fails
with a configuration error exactly when that count is zero.  (For the
scenario `1*2 1*2 0.5 1.2` the marked cells are `(1,1)`, `(1,2)`, `(2,2)`
and the count is 3.) -/
theorem coeff_marks_visited (st : PairState) (ilo ihi jlo jhi : ℕ)
    (eps sig cut : ℝ) (i j : ℕ) (hin : inCoeffRange ilo ihi jlo jhi i j) :
    ((coeffState st ilo ihi jlo jhi eps sig cut).setflag i j = 1 ∧
     (coeffState st ilo ihi jlo jhi eps sig cut).epsilon i j = eps ∧
     (coeffState st ilo ihi jlo jhi eps sig cut).sigma i j = sig ∧
     (coeffState st ilo ihi jlo jhi eps sig cut).cut_lj i j = cut) ∧
    (coeffCount ilo ihi jlo jhi = 0 →
      coeff st ilo ihi jlo jhi eps sig cut = Except.error ()) ∧
    (coeffCount ilo ihi jlo jhi ≠ 0 →
      coeff st ilo ihi jlo jhi eps sig cut =
        Except.ok (coeffState st ilo ihi jlo jhi eps sig cut,
          coeffCount ilo ihi jlo jhi)) ∧
    coeffCount 1 2 1 2 = 3 := by
  refine ⟨⟨?_, ?_, ?_, ?_⟩, ?_, ?_, rfl⟩ <;>
    simp [coeffState, coeff, hin]

/-- Witness for `coeff_marks_visited` at a concrete input. -/
theorem coeff_marks_visited_witness :
    inCoeffRange 1 2 1 2 1 1 ∧
    (((coeffState stW 1 2 1 2 (1 / 2) (6 / 5) (5 / 2)).setflag 1 1 = 1 ∧
     (coeffState stW 1 2 1 2 (1 / 2) (6 / 5) (5 / 2)).epsilon 1 1 = 1 / 2 ∧
     (coeffState stW 1 2 1 2 (1 / 2) (6 / 5) (5 / 2)).sigma 1 1 = 6 / 5 ∧
     (coeffState stW 1 2 1 2 (1 / 2) (6 / 5) (5 / 2)).cut_lj 1 1 = 5 / 2) ∧
    (coeffCount 1 2 1 2 = 0 →
      coeff stW 1 2 1 2 (1 / 2) (6 / 5) (5 / 2) = Except.error ()) ∧
    (coeffCount 1 2 1 2 ≠ 0 →
      coeff stW 1 2 1 2 (1 / 2) (6 / 5) (5 / 2) =
        Except.ok (coeffState stW 1 2 1 2 (1 / 2) (6 / 5) (5 / 2),
          coeffCount 1 2 1 2)) ∧
    coeffCount 1 2 1 2 = 3) :=
  ⟨by decide, coeff_marks_visited stW 1 2 1 2 (1 / 2) (6 / 5) (5 / 2) 1 1
    (by decide)⟩

/-- C10: re-running `settings` after allocation overwrites `cut_lj[i][j]`
with the new global LJ cutoff for every explicitly-set pair with
`1 ≤ i < j ≤ ntypes`, and leaves diagonal cutoffs, all other cells, and
the epsilon/sigma/setflag tables unchanged. -/
theorem settings_reset_matches (st : PairState) (n : ℕ) (cg : ℝ) (i j : ℕ) :
    (1 ≤ i → i ≤ n → i + 1 ≤ j → j ≤ n → st.setflag i j ≠ 0 →
      (settings_reset n cg st).cut_lj i j = cg) ∧
    (settings_reset n cg st).cut_lj i i = st.cut_lj i i ∧
    (¬(1 ≤ i ∧ i ≤ n ∧ i + 1 ≤ j ∧ j ≤ n ∧ st.setflag i j ≠ 0) →
      (settings_reset n cg st).cut_lj i j = st.cut_lj i j) ∧
    (settings_reset n cg st).epsilon = st.epsilon ∧
    (settings_reset n cg st).sigma = st.sigma ∧
    (settings_reset n cg st).setflag = st.setflag := by
  refine ⟨?_, ?_, ?_, rfl, rfl, rfl⟩
  · intro h1 h2 h3 h4 h5
    simp only [settings_reset]
    rw [if_pos ⟨h1, h2, h3, h4, h5⟩]
  · simp only [settings_reset]
    rw [if_neg]
    omega
  · intro h
    simp only [settings_reset]
    rw [if_neg h]

/-- Witness for `settings_reset_matches` at a concrete input. -/
theorem settings_reset_matches_witness :
    (settings_reset 2 7 stX).cut_lj 1 2 = 7 ∧
    (settings_reset 2 7 stX).cut_lj 1 1 = stX.cut_lj 1 1 ∧
    (settings_reset 2 7 stX).epsilon = stX.epsilon := by
  have h := settings_reset_matches stX 2 7 1 2
  exact ⟨h.1 (by norm_num) (by norm_num) (by norm_num) (by norm_num)
      (by norm_num [stX, stW]),
    h.2.1, h.2.2.2.1⟩

end DSFLinear
